import Mathlib

/-!
Verification development for the mount pattern-matching / classification /
rewrite core of the uc-assessment-tools repository.

Python strings are modelled as `List Char` (`Chars`); `None`-able fields as
`Option`.  The mount variant patterns produced by `variations` are plain
literal text (no regex metacharacters for the paths in scope), so the
`re.search(r, inp)` call on a variant is modelled as substring search whose
match (`group(0)`) is the pattern itself.  The generic rule table of
`scan.py` does use real regular expressions; those are modelled by a small
token regex matcher (`RTok`, `rmatch`, `rsearch`) covering exactly the
constructs appearing in the table: literal characters, `.` (any char),
`["']` (quote class), `[\w]+` and `.*`, with leftmost, greedy, backtracking
search as in Python `re.search`.
-/

namespace UCA

/-- Python strings as lists of characters. -/
abbrev Chars := List Char

/-- The single-quote character (code 39), built without an apostrophe literal. -/
def sq : Char := Char.ofNat 39

/-- The double-quote character (code 34). -/
def dq : Char := Char.ofNat 34

/-- Does `s` contain `sub` as a contiguous substring?  Models Python
`sub in s` / `s.find(sub) >= 0`. -/
def containsSub : Chars → Chars → Bool
  | [], sub => sub.isEmpty
  | c :: rest, sub => sub.isPrefixOf (c :: rest) || containsSub rest sub

/-- Python `s.rstrip("/")`: drop trailing slash characters. -/
def rstripSlash (s : Chars) : Chars :=
  (s.reverse.dropWhile (fun c => c == '/')).reverse

/-- Recursion core of `replaceAll`, structurally recursive on a fuel bound
(one unit of fuel per consumed character; a non-empty match consumes at
least one character, so `s.length` fuel always suffices). -/
def replaceAllFuel : Nat → Chars → Chars → Chars → Chars
  | 0, s, _, _ => s
  | Nat.succ fuel, s, old, new =>
    match s with
    | [] => []
    | c :: rest =>
      if old.isPrefixOf (c :: rest) ∧ old ≠ [] then
        new ++ replaceAllFuel fuel ((c :: rest).drop old.length) old new
      else
        c :: replaceAllFuel fuel rest old new

/-- Python `s.replace(old, new)` (replace all non-overlapping occurrences,
scanning left to right). -/
def replaceAll (s old new : Chars) : Chars :=
  replaceAllFuel s.length s old new

/-- Python `s.replace(old, new, 1)` (replace the first occurrence only). -/
def replaceFirst : Chars → Chars → Chars → Chars
  | [], _, _ => []
  | c :: rest, old, new =>
    if old.isPrefixOf (c :: rest) then new ++ (c :: rest).drop old.length
    else c :: replaceFirst rest old new

/-- Recursion core of `countOccur` — Python `s.count(sub)`: number of
non-overlapping occurrences, scanning left to right.  (The Python result
for an empty `sub` is `len(s)+1`; the scanner only ever counts the
non-empty literal `"/mnt"`, so the empty case is fixed to `0` here.)
Structurally recursive on a fuel bound; one unit per consumed character. -/
def countOccurFuel : Nat → Chars → Chars → Nat
  | 0, _, _ => 0
  | Nat.succ fuel, s, sub =>
    match s, sub with
    | _, [] => 0
    | [], _ => 0
    | c :: rest, d :: ds =>
      if (d :: ds).isPrefixOf (c :: rest) then
        1 + countOccurFuel fuel (rest.drop ds.length) (d :: ds)
      else
        countOccurFuel fuel rest (d :: ds)

/-- Entry point: `s.length` fuel always suffices (each step consumes at
least one character of `s`). -/
def countOccur (s sub : Chars) : Nat :=
  countOccurFuel s.length s sub

/-- Python `s.strip()`: remove leading and trailing whitespace. -/
def pyStrip (s : Chars) : Chars :=
  ((s.dropWhile Char.isWhitespace).reverse.dropWhile Char.isWhitespace).reverse

/-- Python `s.upper()` (ASCII letters only, which covers the file extensions
in scope). -/
def pyUpper (s : Chars) : Chars := s.map Char.toUpper

/-- Final path component: the text after the last slash.  Models
`pathlib.PurePath(p).name` for the slash-free-tail paths in scope. -/
def pathFinalName (p : Chars) : Chars :=
  (p.reverse.takeWhile (fun c => !(c == '/'))).reverse

/-- Models `pathlib.PurePath(p).suffix`: the part of the final name from its
last dot, provided that dot is neither the first nor the last character of
the name; otherwise the empty string. -/
def pathSuffix (p : Chars) : Chars :=
  let name := pathFinalName p
  let tailAfter := name.reverse.takeWhile (fun c => !(c == '.'))
  if tailAfter.length == name.length then []
  else
    let i := name.length - tailAfter.length - 1
    if 0 < i ∧ i < name.length - 1 then name.drop i else []

/-! Mount registry (`assessment/code_scanner/mounts.py`). -/

/-- Raw mount record as enumerated from a workspace
(`FakeMount(source=..., mountPoint=...)` in `utils.py`). -/
structure FakeMount where
  source : Chars
  mountPoint : Chars
deriving DecidableEq, Repr

/-- The `Mount` dataclass of `mounts.py`.  Provenance fields `org_id` /
`workspace_url` are carried but never affect matching. -/
structure Mount where
  target : Chars
  raw_src : Chars
  is_mount_valid : Bool
  simple : Option (List Chars) := none
  maybe : Option (List Chars) := none
  cannot_convert : Option (List Chars) := none
  org_id : Option Chars := none
  workspace_url : Option Chars := none
deriving DecidableEq, Repr

/-- Models `Mount._r_search(r, inp)` = `re.search(r, inp)` on a mount
variant pattern `r`.  The variant patterns built by `variations` are literal
text (metacharacter-free for the mount paths in scope), for which a regex
search succeeds iff the pattern occurs as a substring, and `group(0)` is
then the pattern itself. -/
def r_search (r inp : Chars) : Option Chars :=
  if containsSub inp r then some r else none

/-- Shared body of the three `find_*_match` methods: walk the variant list
in order, skipping `None`/empty entries, and return the first
(pattern, matched text) pair found. -/
def find_variant_match (vars : List Chars) (inp : Chars) : Option (Chars × Chars) :=
  match vars with
  | [] => none
  | r :: rs =>
    if r.isEmpty then find_variant_match rs inp
    else
      match r_search r inp with
      | some res => some (r, res)
      | none => find_variant_match rs inp

/-- Method `Mount.find_simple_match`.  The Python `(None, None)` no-match
sentinel is modelled as `none`. -/
def Mount.find_simple_match (m : Mount) (inp : Chars) : Option (Chars × Chars) :=
  find_variant_match (m.simple.getD []) inp

/-- Method `Mount.find_maybe_match`. -/
def Mount.find_maybe_match (m : Mount) (inp : Chars) : Option (Chars × Chars) :=
  find_variant_match (m.maybe.getD []) inp

/-- Method `Mount.find_cannot_convert_match`. -/
def Mount.find_cannot_convert_match (m : Mount) (inp : Chars) : Option (Chars × Chars) :=
  find_variant_match (m.cannot_convert.getD []) inp

/-- Function `variations(mnt_path)`: the (safe, ambiguous) variant lists
derived from the right-slash-trimmed mount path. -/
def variations (mnt_path : Chars) : List Chars × List Chars :=
  let p := rstripSlash mnt_path
  ([ "dbfs:".data ++ p ++ "/".data,
     p ++ "/".data ],
   [ "/dbfs".data ++ p ++ "/".data,
     "dbfs:".data ++ p,
     "/dbfs".data ++ p,
     p ])

/-- Reserved mount sources that are never turned into a `Mount`
(`make_mount`, first branch). -/
def reservedSources : List Chars :=
  ["DatabricksRoot".data, "DbfsReserved".data, "UnityCatalogVolumes".data,
   "databricks/mlflow-tracking".data, "databricks-datasets".data,
   "databricks/mlflow-registry".data, "databricks-results".data]

/-- Function `make_mount(mnt, valid_prefix)`: `None` for reserved sources;
a valid mount (safe list into `simple`, ambiguous list into `maybe`) when
the source starts with the accepted storage-scheme prefix; otherwise an
invalid mount whose `cannot_convert` list is the ambiguous list followed by
the safe list (`cannot_convert_2 + cannot_convert_1` in the source). -/
def make_mount (mnt : FakeMount) (valid_pre : Chars) : Option Mount :=
  if mnt.source ∈ reservedSources then none
  else if valid_pre.isPrefixOf mnt.source then
    let v := variations mnt.mountPoint
    some { target := mnt.source, raw_src := mnt.mountPoint,
           is_mount_valid := true, simple := some v.1, maybe := some v.2 }
  else
    let v := variations mnt.mountPoint
    some { target := mnt.source, raw_src := mnt.mountPoint,
           is_mount_valid := false, cannot_convert := some (v.2 ++ v.1) }

/-- Static method `Mount.from_csv_bytes`.  The pandas CSV decode and the
`Mount(**row)` construction are external to this embedding; a raw CSV row is
modelled by its outcome — `some m` when constructing a `Mount` from the row
succeeds, `none` when it raises.  The source wraps the whole accumulation
loop in one `try/except` that logs and falls through to `return mounts`, so
the rows before the first failing row are kept and everything from the
failing row on is dropped. -/
def from_csv_bytes : List (Option Mount) → List Mount
  | [] => []
  | some m :: rows => m :: from_csv_bytes rows
  | none :: _ => []

/-! Scanner (`assessment/code_scanner/scan.py`). -/

/-- Where an issue was found.  The source keeps a `source_type` tag and a
free-form `source_metadata` dict; the only metadata key the classifier ever
reads is `"file_path"`, modelled here as a field. -/
structure IssueSource where
  source_type : Chars
  file_path : Chars
deriving DecidableEq, Repr

/-- The `Issue` dataclass (provenance field `workspace_url` omitted: it is
never set nor read by the scanning / rewriting core). -/
structure Issue where
  issue_type : Chars
  issue_detail : Chars
  issue_source : IssueSource
  line_number : Option Nat := none
  matched_regex : Option Chars := none
  matched_line : Option Chars := none
  matched_value : Option Chars := none
deriving DecidableEq, Repr

/-- The `IssueInfo` dataclass: type and detail attached to a generic rule. -/
structure IssueInfo where
  issue_type : Chars
  issue_detail : Chars
deriving DecidableEq, Repr

/-! Token regex matcher for the generic rule table.  Python `re.search`
returns the leftmost match; at a given start position quantifiers are
greedy with backtracking.  The table uses only: literal characters,
`.` (any character; the scanned lines contain no newline), the class
`["']`, `[\w]+` and `.*`. -/

/-- Regex tokens for the patterns of `issue_cfg`. -/
inductive RTok where
  | lit (c : Char)
  | anyc
  | quoteCls
  | wplus
  | astar
deriving DecidableEq, Repr

/-- Word characters, as matched by `\w` (ASCII range; mount names in scope
are ASCII). -/
def isWordChar (c : Char) : Bool :=
  c.isAlphanum || c == '_'

/-- Greedy quantifier driver: try to consume `hi`, `hi-1`, ..., `lo`
characters of `xs` and continue with `cont`; first success wins (regex
backtracking order for a greedy quantifier). -/
def greedy (cont : Chars → Option Chars) (xs : Chars) (lo : Nat) : Nat → Option Chars
  | 0 =>
    if lo == 0 then cont xs else none
  | Nat.succ h =>
    if lo > Nat.succ h then none
    else
      match cont (xs.drop (h + 1)) with
      | some m => some (xs.take (h + 1) ++ m)
      | none => greedy cont xs lo h

/-- Match a token list against a prefix of `xs`; returns the matched text
(`group(0)` relative to this start position). -/
def rmatch : List RTok → Chars → Option Chars
  | [], _ => some []
  | RTok.lit c :: ts, xs =>
    match xs with
    | [] => none
    | x :: rest => if x == c then (rmatch ts rest).map (fun m => x :: m) else none
  | RTok.anyc :: ts, xs =>
    match xs with
    | [] => none
    | x :: rest => (rmatch ts rest).map (fun m => x :: m)
  | RTok.quoteCls :: ts, xs =>
    match xs with
    | [] => none
    | x :: rest =>
      if x == dq || x == sq then (rmatch ts rest).map (fun m => x :: m) else none
  | RTok.wplus :: ts, xs =>
    greedy (rmatch ts) xs 1 (xs.takeWhile isWordChar).length
  | RTok.astar :: ts, xs =>
    greedy (rmatch ts) xs 0 xs.length

/-- Leftmost search: models `re.search(pattern, s)` returning `group(0)`,
or `none` when there is no match. -/
def rsearch (p : List RTok) : Chars → Option Chars
  | [] => rmatch p []
  | c :: rest =>
    match rmatch p (c :: rest) with
    | some m => some m
    | none => rsearch p rest

/-- Lift literal text to a token list. -/
def lits (s : Chars) : List RTok := s.map RTok.lit

/-- One entry of the generic rule table: the original regex source text
(used for the `matched_regex` field), its token form, and the attached
`IssueInfo`. -/
structure Rule where
  rtext : Chars
  rtok : List RTok
  info : IssueInfo
deriving DecidableEq, Repr

/-- The `issue_cfg` table, in source order (insertion order of the Python
dict, which iteration preserves). -/
def issue_cfg : List Rule :=
  [ { rtext := "dbfs:\\/mnt\\/[\\w]+\\/".data,
      rtok := lits ("dbfs:/mnt/".data) ++ [RTok.wplus, RTok.lit '/'],
      info := { issue_type := "NON_MATCHING_MOUNT_USE".data, issue_detail := "MAYBE".data } },
    { rtext := "\\/dbfs\\/mnt\\/[\\w]+\\/".data,
      rtok := lits ("/dbfs/mnt/".data) ++ [RTok.wplus, RTok.lit '/'],
      info := { issue_type := "NON_MATCHING_MOUNT_USE".data, issue_detail := "MAYBE".data } },
    { rtext := "dbfs:\\/mnt\\/[\\w]+".data,
      rtok := lits ("dbfs:/mnt/".data) ++ [RTok.wplus],
      info := { issue_type := "NON_MATCHING_MOUNT_USE".data, issue_detail := "MAYBE".data } },
    { rtext := "\\/mnt\\/[\\w]+".data,
      rtok := lits ("/mnt/".data) ++ [RTok.wplus],
      info := { issue_type := "NON_MATCHING_MOUNT_USE".data, issue_detail := "MAYBE".data } },
    { rtext := "\\/dbfs\\/mnt\\/[\\w]+".data,
      rtok := lits ("/dbfs/mnt/".data) ++ [RTok.wplus],
      info := { issue_type := "NON_MATCHING_MOUNT_USE".data, issue_detail := "MAYBE".data } },
    { rtext := "\\/dbfs\\/mnt\\/".data,
      rtok := lits ("/dbfs/mnt/".data),
      info := { issue_type := "NON_MATCHING_MOUNT_USE".data, issue_detail := "CANNOT_CONVERT".data } },
    { rtext := "[".data ++ [dq, sq] ++ "]\\/dbfs/".data,
      rtok := [RTok.quoteCls] ++ lits ("/dbfs/".data),
      info := { issue_type := "DBFS_USE".data, issue_detail := "NOT_POSSIBLE".data } },
    { rtext := "udf\\(".data,
      rtok := lits ("udf(".data),
      info := { issue_type := "UDF_USE".data, issue_detail := "FOUND_UDF".data } },
    { rtext := "# MAGIC %scala".data,
      rtok := lits ("# MAGIC %scala".data),
      info := { issue_type := "SCALA_USE".data, issue_detail := "FOUND_SCALA".data } },
    { rtext := "spark.udf.register".data,
      rtok := lits ("spark".data) ++ [RTok.anyc] ++ lits ("udf".data) ++ [RTok.anyc]
                ++ lits ("register".data),
      info := { issue_type := "UDF_USE".data, issue_detail := "FOUND_SQL_BASED_UDF".data } },
    { rtext := "from pyspark.sql.*udf".data,
      rtok := lits ("from pyspark".data) ++ [RTok.anyc] ++ lits ("sql".data) ++ [RTok.astar]
                ++ lits ("udf".data),
      info := { issue_type := "UDF_USE".data, issue_detail := "FOUND_PYSPARK_UDF".data } },
    { rtext := "import org.apache.spark.sql.functions.*udf".data,
      rtok := lits ("import org".data) ++ [RTok.anyc] ++ lits ("apache".data) ++ [RTok.anyc]
                ++ lits ("spark".data) ++ [RTok.anyc] ++ lits ("sql".data) ++ [RTok.anyc]
                ++ lits ("functions".data) ++ [RTok.astar] ++ lits ("udf".data),
      info := { issue_type := "SCALA_UDF_USE".data, issue_detail := "FOUND_SCALA_UDF".data } } ]

/-- Function `generate_file_name_issue`. -/
def generate_file_name_issue (src : IssueSource) (file_name : Chars) : Option Issue :=
  if (".scala".data).isSuffixOf file_name then
    some { line_number := none, matched_regex := none, matched_value := none,
           issue_source := src,
           issue_type := "FOUND_SCALA_FILE".data,
           issue_detail := "found scala file potentially need enhanced clusters!".data }
  else none

/-- Function `also_contains_other_cloud_stuff`. -/
def also_contains_other_cloud_stuff (line : Chars) : Bool :=
  [ "wasbs://".data, "abfss://".data, "s3a://".data, "adl://".data,
    "s3n://".data, "s3://".data, "gs://".data ].any (fun c => containsSub line c)

/-- Function `is_this_a_fuse_mount`. -/
def is_this_a_fuse_mount (match_value line : Chars) : Bool :=
  containsSub line ("/dbfs".data ++ match_value)

/-- Function `has_multiple_occurrences`: some input occurs more than once in
the string. -/
def has_multiple_occurrences (s : Chars) (inputs : List Chars) : Bool :=
  inputs.any (fun i => 1 < countOccur s i)

/-- The `f"get_uc_mount_target('{maybe_match}',"` marker that
`get_exact_match` looks for to flag an already-converted maybe match. -/
def already_converted_marker (v : Chars) : Chars :=
  "get_uc_mount_target(".data ++ [sq] ++ v ++ [sq, ',']

/-- One iteration of the `get_exact_match` mount loop: the issue this mount
contributes for this line, if any of its three variant tiers (simple, then
maybe, then cannot-convert) matches. -/
def mountLineIssue (idx : Nat) (line : Chars) (src : IssueSource) (mnt : Mount) :
    Option Issue :=
  match mnt.find_simple_match line with
  | some (r, simple_match) =>
    let d :=
      if is_this_a_fuse_mount simple_match line then
        "MAYBE_FUSE_MOUNT_NEEDS_VOLUMES".data
      else if also_contains_other_cloud_stuff line then
        "MAYBE_FOUND_OTHER_CLOUD_PROTOCOLS".data
      else "SIMPLE".data
    some { line_number := some (idx + 1), matched_regex := some r,
           matched_value := some simple_match, matched_line := some (pyStrip line),
           issue_source := src, issue_type := "MATCHING_MOUNT_USE".data,
           issue_detail := d }
  | none =>
    match mnt.find_maybe_match line with
    | some (r, maybe_match) =>
      let d :=
        if containsSub line (already_converted_marker maybe_match) then
          "ALREADY_CONVERTED".data
        else "MAYBE".data
      some { line_number := some (idx + 1), matched_regex := some r,
             matched_value := some maybe_match, matched_line := some (pyStrip line),
             issue_source := src, issue_type := "MATCHING_MOUNT_USE".data,
             issue_detail := d }
    | none =>
      match mnt.find_cannot_convert_match line with
      | some (r, cc_match) =>
        some { line_number := some (idx + 1), matched_regex := some r,
               matched_value := some cc_match, matched_line := some (pyStrip line),
               issue_source := src, issue_type := "MATCHING_MOUNT_USE".data,
               issue_detail := "CANNOT_CONVERT".data }
      | none => none

/-- The mount loop of `get_exact_match`: each matching mount appends one
issue; with `has_mult_occurs` false the function returns at the first
matching mount, otherwise it continues through the remaining mounts. -/
def gem_loop (idx : Nat) (line : Chars) (src : IssueSource) (has_mult : Bool) :
    List Mount → List Issue
  | [] => []
  | mnt :: rest =>
    match mountLineIssue idx line src mnt with
    | some iss => if has_mult then iss :: gem_loop idx line src has_mult rest else [iss]
    | none => gem_loop idx line src has_mult rest

/-- Function `get_exact_match(idx, line, issue_source, discovered_mounts)`
(always called with an explicit mount list in this embedding; the implicit
live-workspace enumeration is an excluded collaborator). -/
def get_exact_match (idx : Nat) (line : Chars) (src : IssueSource)
    (discovered_mounts : List Mount) : List Issue :=
  gem_loop idx line src (has_multiple_occurrences line [ "/mnt".data ]) discovered_mounts

/-- Function `handle_magic`: mount-related issues whose (stripped) matched
line starts with the magic-command marker are forced to
`CANNOT_CONVERT_MAGIC_CMD`.  (`matched_line` is always set on the issues
this is applied to; an absent `matched_line` is treated as no marker.) -/
def handle_magic (iss : Issue) : Issue :=
  if iss.issue_type = "MATCHING_MOUNT_USE".data ∨
     iss.issue_type = "NON_MATCHING_MOUNT_USE".data then
    if ("# MAGIC".data).isPrefixOf (iss.matched_line.getD []) then
      { iss with issue_detail := "CANNOT_CONVERT_MAGIC_CMD".data }
    else iss
  else iss

/-- Function `handle_unsupported_file_types`: for a source file whose path
does not end in `.py`, overwrite the detail with
`CANNOT_CONVERT_<EXTENSION>_FILE` (extension upper-cased, dot removed),
whatever the issue type. -/
def handle_unsupported_file_types (iss : Issue) : Issue :=
  if (".py".data).isSuffixOf iss.issue_source.file_path then iss
  else
    let ext := (pyUpper (pathSuffix iss.issue_source.file_path)).filter
                 (fun c => !(c == '.'))
    { iss with issue_detail := "CANNOT_CONVERT_".data ++ ext ++ "_FILE".data }

/-- Both post-processing gates, in the order `generate_issues` applies them:
`handle_unsupported_file_types(handle_magic(issue))`. -/
def postGates (iss : Issue) : Issue :=
  handle_unsupported_file_types (handle_magic iss)

/-- The generic issue a firing rule constructs for a line (the `Issue(...)`
literal inside the rule loop of `generate_issues`). -/
def genericIssue (idx : Nat) (line : Chars) (src : IssueSource) (rule : Rule)
    (v : Chars) : Issue :=
  { line_number := some (idx + 1), matched_regex := some rule.rtext,
    matched_value := some v, matched_line := some (pyStrip line),
    issue_source := src, issue_type := rule.info.issue_type,
    issue_detail := rule.info.issue_detail }

/-- The inner rule loop of `generate_issues` for one line: try the generic
rules in table order; the first rule whose regex matches fires, and the loop
breaks.  A firing `NON_MATCHING_MOUNT_USE` rule is refined through
`get_exact_match`; a non-empty refinement replaces the generic hit,
otherwise the generic issue itself is yielded.  Every yielded issue passes
through the two post-processing gates. -/
def scanLineRules (idx : Nat) (line : Chars) (src : IssueSource)
    (mounts : List Mount) : List Rule → List Issue
  | [] => []
  | rule :: rest =>
    match rsearch rule.rtok line with
    | some v =>
      let issue : Issue := genericIssue idx line src rule v
      if rule.info.issue_type = "NON_MATCHING_MOUNT_USE".data then
        let exact := get_exact_match idx line src mounts
        if exact.isEmpty then [postGates issue]
        else exact.map postGates
      else [postGates issue]
    | none => scanLineRules idx line src mounts rest

/-- Function `generate_issues` (the `content.read().splitlines()` result is
taken as the line list; `TextIO` reading is an excluded collaborator).  When
`file_name` is passed, a file-identity issue may be emitted first, built
from the metadata file path as in the source. -/
def generate_issues (lines : List Chars) (cfg : List Rule) (src : IssueSource)
    (mounts : List Mount) (file_name : Option Chars) : List Issue :=
  let head :=
    match file_name with
    | some _ =>
      match generate_file_name_issue src src.file_path with
      | some iss => [iss]
      | none => []
    | none => []
  head ++ (lines.enum.map (fun p => scanLineRules p.1 p.2 src mounts cfg)).flatten

/-! Rewrite engine (`assessment/code_scanner/replace.py`). -/

/-- The recognized quote styles, in source order:
`['f"', "f'", 'f"""', "f'''"] + ['"', "'", '"""', "'''"]`. -/
def quote_types : List Chars :=
  [ ['f', dq], ['f', sq], ['f', dq, dq, dq], ['f', sq, sq, sq],
    [dq], [sq], [dq, dq, dq], [sq, sq, sq] ]

/-- The fixed skip marker `uc-scan:skip`. -/
def skipMarker : Chars := "uc-scan:skip".data

/-- Function `is_already_replaced_or_skip(target_replacement, line)`. -/
def is_already_replaced_or_skip (target_replacement line : Chars) : Bool :=
  containsSub line target_replacement || containsSub line skipMarker

/-- The constructed lookup-call text
`f"{function_name}('{normalized_lookup_string}', normalize=True)"`, where
the lookup key is the matched value with every `dbfs:` removed and trailing
slashes stripped. -/
def function_call_string (function_name matched_string : Chars) : Chars :=
  function_name ++ "(".data ++ [sq]
    ++ rstripSlash (replaceAll matched_string ("dbfs:".data) [])
    ++ [sq] ++ ", normalize=True)".data

/-- The quote-type loop of `replace_string_with_custom_function`. -/
def replaceLoop (matched_string line function_name : Chars) : List Chars → Chars
  | [] => line
  | quote_type :: rest =>
    let normalized_matched_string := rstripSlash matched_string
    if quote_type.isPrefixOf normalized_matched_string ||
       containsSub line (quote_type ++ normalized_matched_string) then
      let call := function_call_string function_name matched_string
      let replacement := call ++ " + ".data ++ quote_type
      if is_already_replaced_or_skip call line then line
      else replaceFirst line (quote_type ++ normalized_matched_string) replacement
    else replaceLoop matched_string line function_name rest

/-- Function `replace_string_with_custom_function(matched_string, line,
function_name="get_uc_mount_target")`. -/
def replace_string_with_custom_function (matched_string line : Chars)
    (function_name : Chars := "get_uc_mount_target".data) : Chars :=
  replaceLoop matched_string line function_name quote_types

/-! Helper lemmas. -/

theorem containsSub_refl (s : Chars) : containsSub s s = true := by
  cases s with
  | nil => rfl
  | cons c rest => simp [containsSub, List.isPrefixOf_iff_prefix]

theorem length_le_of_containsSub (s sub : Chars) (h : containsSub s sub = true) :
    sub.length ≤ s.length := by
  induction s with
  | nil =>
    simp [containsSub, List.isEmpty_iff] at h
    simp [h]
  | cons c rest ih =>
    simp only [containsSub, Bool.or_eq_true] at h
    rcases h with h | h
    · exact (List.isPrefixOf_iff_prefix.mp h).length_le
    · exact Nat.le_trans (ih h) (by simp)

theorem containsSub_eq_false_of_lt (s sub : Chars) (h : s.length < sub.length) :
    containsSub s sub = false := by
  cases hc : containsSub s sub with
  | false => rfl
  | true => exact absurd (length_le_of_containsSub s sub hc) (by omega)

/-! Claim C2: the variant lists constructed for a mount definition. -/

/-- Modelled from the spec (§4.1): the safe variant set
`{"dbfs:" + p + "/", p + "/"}` claimed for `simple_variants`. -/
def spec_simple_variants (p : Chars) : List Chars :=
  [ "dbfs:".data ++ p ++ "/".data, p ++ "/".data ]

/-- Modelled from the spec (§4.1): the ambiguous variant set
`{"/dbfs" + p + "/", "dbfs:" + p, "/dbfs" + p, p}` claimed for
`maybe_variants`. -/
def spec_maybe_variants (p : Chars) : List Chars :=
  [ "/dbfs".data ++ p ++ "/".data, "dbfs:".data ++ p, "/dbfs".data ++ p, p ]

/-- Invalid-prefix mount used as the concrete counterexample input. -/
def fakeInvalidC : FakeMount :=
  { source := "wasbs://x@y/z".data, mountPoint := "/mnt/old".data }

/-- C2 counterexample: for the invalid mount on legacy path `/mnt/old`,
`cannot_convert_variants` contains the trailing-slash safe form
`"/mnt/old/"`, which is not an element of the ambiguous set at all — so the
list does not consist of exactly the ambiguous set under any reordering
(it is the ambiguous set followed by the safe set, six entries). -/
theorem c2_counterexample :
    (make_mount fakeInvalidC ("abfss".data)).map
        (fun m => decide (("/mnt/old/".data) ∈ m.cannot_convert.getD [] ∧
                          ("/mnt/old/".data) ∉
                            spec_maybe_variants (rstripSlash fakeInvalidC.mountPoint)))
      = some true := by decide

/-- C2 (amended): for every mount built from a non-reserved source, if the
target starts with the accepted prefix then `simple_variants` is exactly
`["dbfs:" + p + "/", p + "/"]` and `maybe_variants` exactly
`["/dbfs" + p + "/", "dbfs:" + p, "/dbfs" + p, p]` (p the right-trimmed
path); if not, `simple_variants` and `maybe_variants` are empty and
`cannot_convert_variants` is the ambiguous list followed by the safe list. -/
theorem c2_variant_construction (fake : FakeMount) (vp : Chars)
    (hres : fake.source ∉ reservedSources) :
    (vp.isPrefixOf fake.source = true →
      make_mount fake vp = some
        { target := fake.source, raw_src := fake.mountPoint, is_mount_valid := true,
          simple := some (spec_simple_variants (rstripSlash fake.mountPoint)),
          maybe := some (spec_maybe_variants (rstripSlash fake.mountPoint)) }) ∧
    (vp.isPrefixOf fake.source = false →
      make_mount fake vp = some
        { target := fake.source, raw_src := fake.mountPoint, is_mount_valid := false,
          cannot_convert := some
            (spec_maybe_variants (rstripSlash fake.mountPoint) ++
             spec_simple_variants (rstripSlash fake.mountPoint)) }) := by
  constructor
  · intro hvp
    simp [make_mount, hres, hvp, variations, spec_simple_variants, spec_maybe_variants]
  · intro hvp
    simp [make_mount, hres, hvp, variations, spec_simple_variants, spec_maybe_variants]

/-- Valid mount used as a concrete witness input. -/
def fakeValidC : FakeMount :=
  { source := "abfss://c@acct/p".data, mountPoint := "/mnt/src".data }

/-- C2 witness: the construction theorem evaluated on a concrete valid
mount. -/
theorem c2_witness :
    make_mount fakeValidC ("abfss".data) = some
      { target := fakeValidC.source, raw_src := fakeValidC.mountPoint,
        is_mount_valid := true,
        simple := some (spec_simple_variants (rstripSlash fakeValidC.mountPoint)),
        maybe := some (spec_maybe_variants (rstripSlash fakeValidC.mountPoint)) } :=
  (c2_variant_construction fakeValidC ("abfss".data) (by decide)).1 (by decide)

/-! Claim C9: loading a mount table from CSV rows. -/

/-- Concrete well-formed mount rows for the C9 counterexample. -/
def mountRowA : Mount :=
  { target := "abfss://a@x/y".data, raw_src := "/mnt/a".data, is_mount_valid := true }

/-- Second concrete well-formed row. -/
def mountRowB : Mount :=
  { target := "abfss://b@x/y".data, raw_src := "/mnt/b".data, is_mount_valid := true }

/-- C9 counterexample: with a malformed row between two well-formed rows,
the load returns only the first mount — the well-formed row after the
malformed one yields nothing, refuting "every well-formed row still yields
a mount definition". -/
theorem c9_counterexample :
    from_csv_bytes [some mountRowA, none, some mountRowB] = [mountRowA] := by
  decide

/-- C9 (amended): a malformed row ends the load early — the result is
exactly the mounts of the longest well-formed prefix of the row list (rows
before the first malformed row), and the operation always returns a list
(the exception is caught and logged) rather than raising. -/
theorem c9_prefix_only (rows : List (Option Mount)) :
    from_csv_bytes rows = (rows.takeWhile Option.isSome).reduceOption := by
  induction rows with
  | nil => rfl
  | cons r rs ih =>
    cases r with
    | some m => simp [from_csv_bytes, List.takeWhile, ih]
    | none => simp [from_csv_bytes, List.takeWhile]

/-! Claim C3: the rewrite skips a line that already carries the constructed
call or the skip marker. -/

theorem replaceLoop_of_marker (matched line fname : Chars) (qts : List Chars)
    (h : containsSub line (function_call_string fname matched) = true ∨
         containsSub line skipMarker = true) :
    replaceLoop matched line fname qts = line := by
  induction qts with
  | nil => rfl
  | cons q rest ih =>
    show replaceLoop matched line fname (q :: rest) = line
    rw [replaceLoop]
    have hrep : is_already_replaced_or_skip (function_call_string fname matched) line = true := by
      rcases h with h | h <;> simp [is_already_replaced_or_skip, h]
    by_cases hc : (q.isPrefixOf (rstripSlash matched) ||
        containsSub line (q ++ rstripSlash matched)) = true
    · simp only [hc, if_true, hrep]
    · simp only [Bool.not_eq_true] at hc
      simp only [hc, if_false]
      exact ih

/-- C3: the rewrite is a no-op on any line that already contains the exact
constructed lookup-call text for the matched value, or that contains the
fixed `uc-scan:skip` marker — for every line, matched value, and lookup
function name. -/
theorem c3_rewrite_idempotent_guard (matched line fname : Chars)
    (h : containsSub line (function_call_string fname matched) = true ∨
         containsSub line skipMarker = true) :
    replace_string_with_custom_function matched line fname = line :=
  replaceLoop_of_marker matched line fname quote_types h

/-- Line carrying the skip marker, used as the C3 witness input. -/
def lineSkipC : Chars :=
  "x = ".data ++ [dq] ++ "dbfs:/mnt/src/f.csv".data ++ [dq] ++ "  # uc-scan:skip".data

/-- C3 witness: the guard theorem evaluated on a concrete skip-marked
line. -/
theorem c3_witness :
    replace_string_with_custom_function ("dbfs:/mnt/src/".data) lineSkipC
      ("get_uc_mount_target".data) = lineSkipC :=
  c3_rewrite_idempotent_guard ("dbfs:/mnt/src/".data) lineSkipC
    ("get_uc_mount_target".data) (Or.inr (by decide))

/-! Claim C4: concrete rewrite scenario with quote preservation,
normalized lookup key, and idempotence of the output. -/

/-- Input line `x = "dbfs:/mnt/src/file.csv"`. -/
def lineC4 : Chars :=
  "x = ".data ++ [dq] ++ "dbfs:/mnt/src/file.csv".data ++ [dq]

/-- Expected rewritten line
`x = get_uc_mount_target('/mnt/src', normalize=True) + "/file.csv"`. -/
def outC4 : Chars :=
  "x = get_uc_mount_target(".data ++ [sq] ++ "/mnt/src".data ++ [sq]
    ++ ", normalize=True) + ".data ++ [dq] ++ "/file.csv".data ++ [dq]

/-- The same reference without any recognized quote before the matched
value. -/
def lineC4NoQuote : Chars := "x = dbfs:/mnt/src/file.csv".data

/-- C4: rewriting `x = "dbfs:/mnt/src/file.csv"` for matched value
`dbfs:/mnt/src/` produces exactly
`x = get_uc_mount_target('/mnt/src', normalize=True) + "/file.csv"` (the
preceding double quote is preserved after the appended `+`, the lookup key
loses the `dbfs:` prefix and trailing slash); rerunning the rewrite on the
output returns it unchanged; and with no recognized quote before the
matched value the line is untouched. -/
theorem c4_rewrite_scenario :
    replace_string_with_custom_function ("dbfs:/mnt/src/".data) lineC4
        ("get_uc_mount_target".data) = outC4 ∧
    replace_string_with_custom_function ("dbfs:/mnt/src/".data) outC4
        ("get_uc_mount_target".data) = outC4 ∧
    replace_string_with_custom_function ("dbfs:/mnt/src/".data) lineC4NoQuote
        ("get_uc_mount_target".data) = lineC4NoQuote := by
  refine ⟨by decide, by decide, by decide⟩

/-! Claim C1: a string equal to a simple variant is matched as that exact
variant, never as a maybe / cannot-convert match. -/

theorem len_dbfs_colon : ("dbfs:".data).length = 5 := rfl

theorem len_slash_dbfs : ("/dbfs".data).length = 5 := rfl

theorem len_slash : ("/".data).length = 1 := rfl

theorem ne_of_length_ne (l1 l2 : Chars) (h : l1.length ≠ l2.length) : l1 ≠ l2 :=
  fun he => h (congrArg List.length he)

theorem variations_fst (x : Chars) :
    (variations x).1 = [ "dbfs:".data ++ rstripSlash x ++ "/".data,
                         rstripSlash x ++ "/".data ] := rfl

theorem variations_snd (x : Chars) :
    (variations x).2 = [ "/dbfs".data ++ rstripSlash x ++ "/".data,
                         "dbfs:".data ++ rstripSlash x,
                         "/dbfs".data ++ rstripSlash x,
                         rstripSlash x ] := rfl

theorem find_variant_match_pair (a b s : Chars)
    (ha : a.isEmpty = false) (hb : b.isEmpty = false)
    (hlen : b.length < a.length) (hs : s = a ∨ s = b) :
    find_variant_match [a, b] s = some (s, s) := by
  rcases hs with rfl | rfl
  · simp [find_variant_match, ha, r_search, containsSub_refl]
  · have hnc : containsSub s a = false := containsSub_eq_false_of_lt _ _ hlen
    simp [find_variant_match, ha, hb, r_search, hnc, containsSub_refl]

/-- The refinement loop on a single mount whose simple tier matched:
exactly one issue, of type `MATCHING_MOUNT_USE`, with the simple-tier
detail cascade. -/
theorem gem_single_of_simple (idx : Nat) (line : Chars) (src : IssueSource)
    (m : Mount) (r v : Chars) (h : m.find_simple_match line = some (r, v)) :
    get_exact_match idx line src [m] =
      [ { line_number := some (idx + 1), matched_regex := some r,
          matched_value := some v, matched_line := some (pyStrip line),
          issue_source := src, issue_type := "MATCHING_MOUNT_USE".data,
          issue_detail :=
            if is_this_a_fuse_mount v line then
              "MAYBE_FUSE_MOUNT_NEEDS_VOLUMES".data
            else if also_contains_other_cloud_stuff line then
              "MAYBE_FOUND_OTHER_CLOUD_PROTOCOLS".data
            else "SIMPLE".data } ] := by
  have hone : mountLineIssue idx line src m = some
      { line_number := some (idx + 1), matched_regex := some r,
        matched_value := some v, matched_line := some (pyStrip line),
        issue_source := src, issue_type := "MATCHING_MOUNT_USE".data,
        issue_detail :=
          if is_this_a_fuse_mount v line then
            "MAYBE_FUSE_MOUNT_NEEDS_VOLUMES".data
          else if also_contains_other_cloud_stuff line then
            "MAYBE_FOUND_OTHER_CLOUD_PROTOCOLS".data
          else "SIMPLE".data } := by
    rw [mountLineIssue, h]
  rw [get_exact_match]
  cases has_multiple_occurrences line [ "/mnt".data ] <;>
    simp [gem_loop, hone]

/-- C1: for every mount definition produced by the registry constructor
(`make_mount`) and every string `s` equal to one of its simple variants,
`find_simple_match` returns exactly that variant as both pattern and match,
and the exact-match refinement classifies the literal as a
`MATCHING_MOUNT_USE` with a simple-tier detail — never `MAYBE`,
`CANNOT_CONVERT` or `ALREADY_CONVERTED` — because the simple tier is
consulted first and the search stops at its hit. -/
theorem c1_simple_variant_exact (fake : FakeMount) (vp : Chars) (m : Mount) (s : Chars)
    (hm : make_mount fake vp = some m) (hs : s ∈ m.simple.getD []) :
    m.find_simple_match s = some (s, s) ∧
    ∀ idx src, ∀ iss ∈ get_exact_match idx s src [m],
      iss.issue_type = "MATCHING_MOUNT_USE".data ∧
      iss.matched_value = some s ∧
      iss.issue_detail ≠ "MAYBE".data ∧
      iss.issue_detail ≠ "CANNOT_CONVERT".data ∧
      iss.issue_detail ≠ "ALREADY_CONVERTED".data := by
  rw [make_mount] at hm
  by_cases hr : fake.source ∈ reservedSources
  · rw [if_pos hr] at hm
    exact absurd hm (by simp)
  rw [if_neg hr] at hm
  by_cases hv : vp.isPrefixOf fake.source = true
  case neg =>
    rw [if_neg (by simpa using hv)] at hm
    have hm2 := Option.some.inj hm
    rw [← hm2] at hs
    simp at hs
  case pos =>
    rw [if_pos hv] at hm
    have hm2 := Option.some.inj hm
    rw [← hm2] at hs ⊢
    rw [variations_fst] at hs
    simp only [Option.getD_some] at hs
    have hs2 : s = "dbfs:".data ++ rstripSlash fake.mountPoint ++ "/".data ∨
        s = rstripSlash fake.mountPoint ++ "/".data := by simpa using hs
    have hsimple : Mount.find_simple_match
        { target := fake.source, raw_src := fake.mountPoint, is_mount_valid := true,
          simple := some (variations fake.mountPoint).1,
          maybe := some (variations fake.mountPoint).2 } s = some (s, s) := by
      rw [Mount.find_simple_match]
      simp only [Option.getD_some, variations_fst]
      refine find_variant_match_pair _ _ s rfl ?_ ?_ hs2
      · simp [List.isEmpty_iff]
      · simp [List.length_append, len_dbfs_colon, len_slash]
    refine ⟨hsimple, ?_⟩
    intro idx src iss hiss
    rw [gem_single_of_simple idx s src _ s s hsimple] at hiss
    have hfuse : is_this_a_fuse_mount s s = false := by
      apply containsSub_eq_false_of_lt
      simp [List.length_append, len_slash_dbfs]
      omega
    rw [List.mem_singleton] at hiss
    subst hiss
    rw [hfuse]
    refine ⟨rfl, rfl, ?_, ?_, ?_⟩ <;>
      rcases hc : also_contains_other_cloud_stuff s with _ | _ <;> simp [hc]

/-- The mount produced by `make_mount` on the concrete valid fixture. -/
def mountValidC : Mount :=
  { target := "abfss://c@acct/p".data, raw_src := "/mnt/src".data,
    is_mount_valid := true,
    simple := some [ "dbfs:/mnt/src/".data, "/mnt/src/".data ],
    maybe := some [ "/dbfs/mnt/src/".data, "dbfs:/mnt/src".data,
                    "/dbfs/mnt/src".data, "/mnt/src".data ] }

/-- C1 witness: the exact-variant theorem evaluated on the concrete valid
mount and its second simple variant `/mnt/src/`. -/
theorem c1_witness :
    mountValidC.find_simple_match ("/mnt/src/".data)
      = some ("/mnt/src/".data, "/mnt/src/".data) :=
  (c1_simple_variant_exact fakeValidC ("abfss".data) mountValidC ("/mnt/src/".data)
    (by decide) (by decide)).1

/-! Claim C8: the three variant lists of a mount definition are pairwise
disjoint in content. -/

/-- Content disjointness of two variant lists. -/
def listsDisjoint (l1 l2 : List Chars) : Prop :=
  ∀ x, x ∈ l1 → x ∉ l2

/-- C8: for every mount definition produced by the registry constructor,
`simple_variants`, `maybe_variants` and `cannot_convert_variants` are
pairwise disjoint in content (for a valid mount the simple and maybe lists
never share a string, whatever the legacy path; for an invalid mount the
simple and maybe lists are empty). -/
theorem c8_variant_lists_disjoint (fake : FakeMount) (vp : Chars) (m : Mount)
    (hm : make_mount fake vp = some m) :
    listsDisjoint (m.simple.getD []) (m.maybe.getD []) ∧
    listsDisjoint (m.simple.getD []) (m.cannot_convert.getD []) ∧
    listsDisjoint (m.maybe.getD []) (m.cannot_convert.getD []) := by
  rw [make_mount] at hm
  by_cases hr : fake.source ∈ reservedSources
  · rw [if_pos hr] at hm
    exact absurd hm (by simp)
  rw [if_neg hr] at hm
  by_cases hv : vp.isPrefixOf fake.source = true
  case neg =>
    rw [if_neg (by simpa using hv)] at hm
    have hm2 := Option.some.inj hm
    rw [← hm2]
    refine ⟨?_, ?_, ?_⟩ <;> intro x hx <;> simp at hx
  case pos =>
    rw [if_pos hv] at hm
    have hm2 := Option.some.inj hm
    rw [← hm2]
    refine ⟨?_, ?_, ?_⟩
    case refine_2 => intro x hx hc; simp at hc
    case refine_3 => intro x hx hc; simp at hc
    intro x hx hc
    rw [show (Option.getD (some (variations fake.mountPoint).1) []) =
          (variations fake.mountPoint).1 from rfl, variations_fst] at hx
    rw [show (Option.getD (some (variations fake.mountPoint).2) []) =
          (variations fake.mountPoint).2 from rfl, variations_snd] at hc
    set p := rstripSlash fake.mountPoint with hp
    have hlp : ∀ u v : Chars, u.length ≠ v.length → ¬ (x = u ∧ x = v) := by
      rintro u v hne ⟨rfl, he⟩
      exact ne_of_length_ne _ _ hne he
    simp only [List.mem_cons, List.mem_singleton, List.not_mem_nil, or_false] at hx hc
    rcases hx with rfl | rfl <;> rcases hc with he | he | he | he <;>
      first
        | exact absurd (show some 'd' = some '/' from congrArg List.head? he)
            (by decide)
        | (have h2 := congrArg List.length he
           simp [List.length_append, len_dbfs_colon, len_slash_dbfs, len_slash] at h2
           try omega)

/-- C8 witness: pairwise disjointness evaluated on the concrete valid
mount — its first simple variant is in neither of the other lists. -/
theorem c8_witness :
    ("dbfs:/mnt/src/".data) ∉ mountValidC.maybe.getD [] ∧
    ("dbfs:/mnt/src/".data) ∉ mountValidC.cannot_convert.getD [] := by
  have h := c8_variant_lists_disjoint fakeValidC ("abfss".data) mountValidC (by decide)
  exact ⟨h.1 ("dbfs:/mnt/src/".data) (by decide),
         h.2.1 ("dbfs:/mnt/src/".data) (by decide)⟩

/-! Claim C5: multi-occurrence completeness of the exact-match
refinement. -/

/-- A mount is referenced by the line through one of its variants (some
tier of the pattern matcher hits). -/
def mount_matches (m : Mount) (line : Chars) : Bool :=
  (m.find_simple_match line).isSome || (m.find_maybe_match line).isSome ||
    (m.find_cannot_convert_match line).isSome

theorem mountLineIssue_isSome (idx : Nat) (line : Chars) (src : IssueSource)
    (m : Mount) : (mountLineIssue idx line src m).isSome = mount_matches m line := by
  rw [mountLineIssue, mount_matches]
  cases h1 : m.find_simple_match line with
  | some p1 =>
    rcases p1 with ⟨r, v⟩
    simp
  | none =>
    cases h2 : m.find_maybe_match line with
    | some p2 =>
      rcases p2 with ⟨r, v⟩
      simp
    | none =>
      cases h3 : m.find_cannot_convert_match line with
      | some p3 =>
        rcases p3 with ⟨r, v⟩
        simp
      | none => simp

/-- C5: when the line contains the trigger substring `/mnt` more than once,
the refinement does not stop at the first matching mount: with two mounts
each matched by one of their variants it yields one issue per mount (two
issues); with the trigger occurring at most once it returns after the first
matching mount (one issue), whatever mounts follow. -/
theorem c5_multi_occurrence_completeness (idx : Nat) (line : Chars)
    (src : IssueSource) (m1 m2 : Mount) (rest : List Mount) :
    (has_multiple_occurrences line [ "/mnt".data ] = true →
      mount_matches m1 line = true → mount_matches m2 line = true →
      (get_exact_match idx line src [m1, m2]).length = 2) ∧
    (has_multiple_occurrences line [ "/mnt".data ] = false →
      mount_matches m1 line = true →
      (get_exact_match idx line src (m1 :: rest)).length = 1) := by
  constructor
  · intro hmult h1 h2
    obtain ⟨i1, hi1⟩ : ∃ i, mountLineIssue idx line src m1 = some i := by
      rw [← Option.isSome_iff_exists, mountLineIssue_isSome, h1]
    obtain ⟨i2, hi2⟩ : ∃ i, mountLineIssue idx line src m2 = some i := by
      rw [← Option.isSome_iff_exists, mountLineIssue_isSome, h2]
    rw [get_exact_match, hmult]
    simp [gem_loop, hi1, hi2]
  · intro hmult h1
    obtain ⟨i1, hi1⟩ : ∃ i, mountLineIssue idx line src m1 = some i := by
      rw [← Option.isSome_iff_exists, mountLineIssue_isSome, h1]
    rw [get_exact_match, hmult]
    simp [gem_loop, hi1]

/-- Valid mount fixture on `/mnt/aaa`. -/
def mountAC : Mount :=
  { target := "abfss://c@acct/a".data, raw_src := "/mnt/aaa".data,
    is_mount_valid := true,
    simple := some [ "dbfs:/mnt/aaa/".data, "/mnt/aaa/".data ],
    maybe := some [ "/dbfs/mnt/aaa/".data, "dbfs:/mnt/aaa".data,
                    "/dbfs/mnt/aaa".data, "/mnt/aaa".data ] }

/-- Valid mount fixture on `/mnt/bbb`. -/
def mountBC : Mount :=
  { target := "abfss://c@acct/b".data, raw_src := "/mnt/bbb".data,
    is_mount_valid := true,
    simple := some [ "dbfs:/mnt/bbb/".data, "/mnt/bbb/".data ],
    maybe := some [ "/dbfs/mnt/bbb/".data, "dbfs:/mnt/bbb".data,
                    "/dbfs/mnt/bbb".data, "/mnt/bbb".data ] }

/-- Line referencing both fixture mounts (trigger `/mnt` occurs twice). -/
def lineTwoC : Chars :=
  "x = [".data ++ [dq] ++ "/mnt/aaa/f".data ++ [dq] ++ ", ".data
    ++ [dq] ++ "/mnt/bbb/g".data ++ [dq] ++ "]".data

/-- Line referencing one mount (trigger `/mnt` occurs once). -/
def lineOneC : Chars := "y = /mnt/aaa/f".data

/-- File-backed issue sources used by the concrete fixtures. -/
def srcPyC : IssueSource :=
  { source_type := "FILE".data, file_path := "/tmp/dir/test.py".data }

/-- C5 witness: two issues for the double-reference line, one for the
single-reference line. -/
theorem c5_witness :
    (get_exact_match 0 lineTwoC srcPyC [mountAC, mountBC]).length = 2 ∧
    (get_exact_match 0 lineOneC srcPyC (mountAC :: [mountBC])).length = 1 :=
  ⟨(c5_multi_occurrence_completeness 0 lineTwoC srcPyC mountAC mountBC []).1
      (by decide) (by decide) (by decide),
   (c5_multi_occurrence_completeness 0 lineOneC srcPyC mountAC mountBC [mountBC]).2
      (by decide) (by decide)⟩

/-! Claim C6: the file-type gate overrides the magic-command gate. -/

/-- The forced detail `CANNOT_CONVERT_<EXTENSION>_FILE` for a path. -/
def gated_detail (path : Chars) : Chars :=
  "CANNOT_CONVERT_".data
    ++ (pyUpper (pathSuffix path)).filter (fun c => !(c == '.'))
    ++ "_FILE".data

theorem handle_magic_source (iss : Issue) :
    (handle_magic iss).issue_source = iss.issue_source := by
  rw [handle_magic]
  split_ifs <;> rfl

theorem handle_magic_type (iss : Issue) :
    (handle_magic iss).issue_type = iss.issue_type := by
  rw [handle_magic]
  split_ifs <;> rfl

theorem postGates_detail (iss : Issue)
    (h : (".py".data).isSuffixOf iss.issue_source.file_path = false) :
    (postGates iss).issue_detail = gated_detail iss.issue_source.file_path := by
  rw [postGates, handle_unsupported_file_types, handle_magic_source iss,
      if_neg (by simp [h]), gated_detail]

/-- C6: for any mount-related issue found in a file whose extension is not
`.py`, the final detail after both post-processing gates is
`CANNOT_CONVERT_<EXTENSION>_FILE` whatever the raw classification was —
in particular the file-type gate, applied second, overrides the magic
gate, which by itself forces `CANNOT_CONVERT_MAGIC_CMD` on mount-related
issues whose trimmed matched line starts with `# MAGIC`. -/
theorem c6_file_gate_overrides_magic (iss : Issue)
    (hpy : (".py".data).isSuffixOf iss.issue_source.file_path = false) :
    (postGates iss).issue_detail = gated_detail iss.issue_source.file_path ∧
    ((iss.issue_type = "MATCHING_MOUNT_USE".data ∨
      iss.issue_type = "NON_MATCHING_MOUNT_USE".data) →
      ("# MAGIC".data).isPrefixOf (iss.matched_line.getD []) = true →
      (handle_magic iss).issue_detail = "CANNOT_CONVERT_MAGIC_CMD".data) := by
  refine ⟨postGates_detail iss hpy, ?_⟩
  intro ht hmagic
  rw [handle_magic, if_pos ht, if_pos hmagic]

/-- Non-`.py` issue source for the gate fixtures. -/
def srcSqlC : IssueSource :=
  { source_type := "FILE".data, file_path := "/tmp/dir/test.sql".data }

/-- Mount issue on a magic-command line of a `.sql` file. -/
def magicIssueC : Issue :=
  { issue_type := "MATCHING_MOUNT_USE".data, issue_detail := "SIMPLE".data,
    issue_source := srcSqlC, line_number := some 1,
    matched_regex := some ("/mnt/src/".data),
    matched_line := some ("# MAGIC x = 1".data),
    matched_value := some ("/mnt/src/".data) }

/-- C6 witness: on the `.sql` magic-line issue, both gates together yield
the file-type detail, while the magic gate alone yields the magic detail. -/
theorem c6_witness :
    (postGates magicIssueC).issue_detail = "CANNOT_CONVERT_SQL_FILE".data ∧
    (handle_magic magicIssueC).issue_detail = "CANNOT_CONVERT_MAGIC_CMD".data := by
  have h := c6_file_gate_overrides_magic magicIssueC (by decide)
  refine ⟨?_, h.2 (by decide) (by decide)⟩
  rw [h.1]
  decide

/-! Claim C7: first-match-wins over the generic rule table, with the
exact-match refinement replacing (or falling back to) the generic hit. -/

/-- C7: once a rule of the table matches a line, the rules after it are
never consulted (the result over `rule :: rest` equals the result over
`[rule]` alone); for a firing ambiguous-mount rule, an empty refinement
falls back to exactly the generic rule's own issue (post-processed) and a
non-empty refinement replaces it by the refined issues; a firing
non-mount rule always yields exactly its own issue (post-processed). -/
theorem c7_first_match_wins (idx : Nat) (line : Chars) (src : IssueSource)
    (mounts : List Mount) (rule : Rule) (rest : List Rule) (v : Chars)
    (hm : rsearch rule.rtok line = some v) :
    scanLineRules idx line src mounts (rule :: rest) =
      scanLineRules idx line src mounts [rule] ∧
    (rule.info.issue_type = "NON_MATCHING_MOUNT_USE".data →
      get_exact_match idx line src mounts = [] →
      scanLineRules idx line src mounts (rule :: rest) =
        [postGates (genericIssue idx line src rule v)]) ∧
    (rule.info.issue_type = "NON_MATCHING_MOUNT_USE".data →
      get_exact_match idx line src mounts ≠ [] →
      scanLineRules idx line src mounts (rule :: rest) =
        (get_exact_match idx line src mounts).map postGates) ∧
    (rule.info.issue_type ≠ "NON_MATCHING_MOUNT_USE".data →
      scanLineRules idx line src mounts (rule :: rest) =
        [postGates (genericIssue idx line src rule v)]) := by
  refine ⟨?_, ?_, ?_, ?_⟩
  · simp only [scanLineRules, hm]
  · intro ht hempty
    simp [scanLineRules, hm, ht, hempty]
  · intro ht hne
    have he : (get_exact_match idx line src mounts).isEmpty = false := by
      simpa [List.isEmpty_iff] using hne
    simp [scanLineRules, hm, ht, he]
  · intro ht
    simp [scanLineRules, hm, ht]

/-- Copy of the first table rule (ambiguous `dbfs:/mnt/<name>/` reference),
used as a concrete firing rule. -/
def ruleC : Rule :=
  { rtext := "dbfs:\\/mnt\\/[\\w]+\\/".data,
    rtok := lits ("dbfs:/mnt/".data) ++ [RTok.wplus, RTok.lit '/'],
    info := { issue_type := "NON_MATCHING_MOUNT_USE".data,
              issue_detail := "MAYBE".data } }

/-- Line on which `ruleC` fires with match `dbfs:/mnt/abc/`. -/
def lineC7 : Chars := "x = dbfs:/mnt/abc/".data

/-- C7 witness: with no known mounts the refinement is empty, so the line
yields exactly the generic rule's own (post-processed) issue, and the
eleven rules stacked after the firing rule are never consulted. -/
theorem c7_witness :
    scanLineRules 0 lineC7 srcPyC [] (ruleC :: issue_cfg) =
      [postGates (genericIssue 0 lineC7 srcPyC ruleC ("dbfs:/mnt/abc/".data))] :=
  (c7_first_match_wins 0 lineC7 srcPyC [] ruleC issue_cfg ("dbfs:/mnt/abc/".data)
      (by decide)).2.1 (by decide) (by decide)

/-! Claim C10: the file-extension gate is applied to every issue the
scanner yields, not only to mount-related ones. -/

theorem mountLineIssue_source (idx : Nat) (line : Chars) (src : IssueSource)
    (m : Mount) (i : Issue) (h : mountLineIssue idx line src m = some i) :
    i.issue_source = src := by
  rw [mountLineIssue] at h
  cases h1 : m.find_simple_match line with
  | some p1 =>
    rcases p1 with ⟨r, v⟩
    rw [h1] at h
    cases h
    rfl
  | none =>
    rw [h1] at h
    cases h2 : m.find_maybe_match line with
    | some p2 =>
      rcases p2 with ⟨r, v⟩
      rw [h2] at h
      cases h
      rfl
    | none =>
      rw [h2] at h
      cases h3 : m.find_cannot_convert_match line with
      | some p3 =>
        rcases p3 with ⟨r, v⟩
        rw [h3] at h
        cases h
        rfl
      | none =>
        rw [h3] at h
        cases h

theorem gem_loop_source (idx : Nat) (line : Chars) (src : IssueSource) (b : Bool) :
    ∀ mounts iss, iss ∈ gem_loop idx line src b mounts → iss.issue_source = src := by
  intro mounts
  induction mounts with
  | nil =>
    intro iss h
    simp [gem_loop] at h
  | cons m rest ih =>
    intro iss h
    rw [gem_loop] at h
    cases hmi : mountLineIssue idx line src m with
    | none =>
      rw [hmi] at h
      exact ih iss h
    | some i =>
      rw [hmi] at h
      cases b with
      | true =>
        simp only [if_true] at h
        rcases List.mem_cons.mp h with rfl | h2
        · exact mountLineIssue_source idx line src m iss hmi
        · exact ih iss h2
      | false =>
        simp only [Bool.false_eq_true, if_false, List.mem_singleton] at h
        subst h
        exact mountLineIssue_source idx line src m iss hmi

theorem scanLineRules_detail (idx : Nat) (line : Chars) (src : IssueSource)
    (mounts : List Mount)
    (hpy : (".py".data).isSuffixOf src.file_path = false) :
    ∀ cfg iss, iss ∈ scanLineRules idx line src mounts cfg →
      iss.issue_detail = gated_detail src.file_path := by
  intro cfg
  induction cfg with
  | nil =>
    intro iss h
    simp [scanLineRules] at h
  | cons rule rest ih =>
    intro iss h
    cases hr : rsearch rule.rtok line with
    | none =>
      simp only [scanLineRules, hr] at h
      exact ih iss h
    | some v =>
      simp only [scanLineRules, hr] at h
      have hgen : iss = postGates (genericIssue idx line src rule v) →
          iss.issue_detail = gated_detail src.file_path := by
        rintro rfl
        exact postGates_detail _ hpy
      by_cases ht : rule.info.issue_type = "NON_MATCHING_MOUNT_USE".data
      · rw [if_pos ht] at h
        by_cases hemp : (get_exact_match idx line src mounts).isEmpty = true
        · rw [if_pos hemp, List.mem_singleton] at h
          exact hgen h
        · rw [if_neg hemp] at h
          rcases List.mem_map.mp h with ⟨x, hx, rfl⟩
          have hxs : x.issue_source = src :=
            gem_loop_source idx line src _ _ x hx
          have := postGates_detail x (by rw [hxs]; exact hpy)
          rw [this, hxs]
      · rw [if_neg ht, List.mem_singleton] at h
        exact hgen h

/-- C10: for every scanned file whose path does not end in `.py`, every
issue yielded by the scanner — whatever its `issue_type` (mount-related,
UDF use, Scala use, ...) — has its detail overwritten to
`CANNOT_CONVERT_<EXTENSION>_FILE`, losing the rule's original detail. -/
theorem c10_file_gate_hits_every_issue (lines : List Chars) (cfg : List Rule)
    (src : IssueSource) (mounts : List Mount)
    (hpy : (".py".data).isSuffixOf src.file_path = false) :
    ∀ iss ∈ generate_issues lines cfg src mounts none,
      iss.issue_detail = gated_detail src.file_path := by
  intro iss h
  rw [generate_issues] at h
  simp only [List.nil_append, List.mem_flatten, List.mem_map] at h
  rcases h with ⟨l, ⟨pair, _hp, rfl⟩, hmem⟩
  exact scanLineRules_detail pair.1 pair.2 src mounts hpy cfg iss hmem

/-- The UDF-rule line of the C10 witness file. -/
def udfLineC : Chars := "@udf(x)".data

/-- The issue the scanner yields for `udfLineC` in a `.sql` file: a
`UDF_USE` issue whose `FOUND_UDF` detail has been overwritten by the
file-type gate. -/
def udfIssueC : Issue :=
  { issue_type := "UDF_USE".data, issue_detail := "CANNOT_CONVERT_SQL_FILE".data,
    issue_source := srcSqlC, line_number := some 1,
    matched_regex := some ("udf\\(".data),
    matched_line := some ("@udf(x)".data),
    matched_value := some ("udf(".data) }

/-- C10 witness: the gate theorem evaluated on a concrete non-mount
(`UDF_USE`) issue scanned from a `.sql` file. -/
theorem c10_witness : udfIssueC.issue_detail = gated_detail srcSqlC.file_path :=
  c10_file_gate_hits_every_issue [udfLineC] issue_cfg srcSqlC [] (by decide)
    udfIssueC (by decide)

end UCA
